import Mathlib

/-!
Verification model of the myMemo reminder bot (`internal/bot/bot.go` and the
fallback path of `internal/openai`).  Go strings are modelled as `List Char`
(one entry per rune); the one function that manipulates raw bytes
(`SummarizeReminder`'s truncation fallback) is modelled over `List Nat`
(one entry per byte).  The GORM-backed repository is modelled as a list of
reminders plus a monotone counter standing for both the auto-increment id and
the auto-set creation time; queries with `ORDER BY priority DESC, created_at
ASC` are modelled by an insertion sort on that key.  External collaborators
(the OpenAI classifier/summarizer, Twilio transport, clock formatting) are
parameters of the model.
-/

deriving instance DecidableEq for Except

namespace MyMemo

/-- Go strings viewed as rune sequences. -/
abbrev GoStr := List Char

/-- `\s` of Go's regexp package: `[\t\n\f\r ]`. -/
def isRegexSpace (c : Char) : Bool :=
  c = '\t' || c = '\n' || c = '\x0c' || c = '\r' || c = ' '

/-- `unicode.IsSpace`: the Unicode White_Space property. -/
def isUnicodeSpace (c : Char) : Bool :=
  c = '\t' || c = '\n' || c = '\x0b' || c = '\x0c' || c = '\r' || c = ' ' ||
  c = '\x85' || c = '\xa0' ||
  c.toNat = 0x1680 || (0x2000 ≤ c.toNat && c.toNat ≤ 0x200a) ||
  c.toNat = 0x2028 || c.toNat = 0x2029 || c.toNat = 0x202f ||
  c.toNat = 0x205f || c.toNat = 0x3000

/-- ASCII decimal digit (`\d` of Go's regexp package). -/
def isDigitChar (c : Char) : Bool := '0' ≤ c && c ≤ '9'

/-- ASCII lowering of one rune; non-letters unchanged.  Stands for
`unicode.ToLower` (the two agree on all characters relevant to the bot's
ASCII keyword vocabulary). -/
def asciiLower (c : Char) : Char :=
  if 'A' ≤ c && c ≤ 'Z' then Char.ofNat (c.toNat + 32) else c

/-- `strings.ToLower`. -/
def goToLower (s : GoStr) : GoStr := s.map asciiLower

/-- Drop trailing characters satisfying `p`. -/
def dropTrailing (p : Char → Bool) (s : GoStr) : GoStr :=
  ((s.reverse).dropWhile p).reverse

/-- `strings.TrimSpace`: trim Unicode whitespace from both ends. -/
def trimSpace (s : GoStr) : GoStr :=
  dropTrailing isUnicodeSpace (s.dropWhile isUnicodeSpace)

/-- `pat` is a leading segment of `s`. -/
def leadsWith : GoStr → GoStr → Bool
  | _, [] => true
  | [], _ :: _ => false
  | c :: s, p :: ps => c == p && leadsWith s ps

/-- `strings.Contains s pat`. -/
def containsSubstr : GoStr → GoStr → Bool
  | [], pat => pat.isEmpty
  | c :: rest, pat => leadsWith (c :: rest) pat || containsSubstr rest pat

/-- `strings.TrimPrefix from "whatsapp:"` (`sanitizeWhatsAppNumber`). -/
def sanitizeWhatsAppNumber (from_ : GoStr) : GoStr :=
  if leadsWith from_ ("whatsapp:".data) then from_.drop 9 else from_

/-- `strings.FieldsFunc`: maximal runs of non-separator characters. -/
def goFields (f : Char → Bool) : GoStr → List GoStr
  | [] => []
  | [c] => if f c then [] else [[c]]
  | c :: d :: rest =>
    if f c then goFields f (d :: rest)
    else
      match f d, goFields f (d :: rest) with
      | true, ts => [c] :: ts
      | false, t :: ts => (c :: t) :: ts
      | false, [] => [[c]]

/-- Value of a run of decimal digits. -/
def digitsToNat (s : GoStr) : Nat :=
  s.foldl (fun acc c => 10 * acc + (c.toNat - 48)) 0

/-- Largest value of Go's 64-bit `int`. -/
def maxInt64 : Nat := 9223372036854775807

/-- Unsigned decimal parse with an overflow limit (`strconv.ParseUint` body). -/
def goAtoiDigits (ds : GoStr) (limit : Nat) : Option Nat :=
  if ds ≠ [] && ds.all isDigitChar && digitsToNat ds ≤ limit then some (digitsToNat ds)
  else none

/-- `strconv.Atoi`: optional sign, decimal digits, 64-bit range check. -/
def goAtoi (s : GoStr) : Option Int :=
  match s with
  | [] => none
  | c :: ds =>
    if c = '+' then (goAtoiDigits ds maxInt64).map (fun n => (n : Int))
    else if c = '-' then (goAtoiDigits ds (maxInt64 + 1)).map (fun n => -(n : Int))
    else (goAtoiDigits (c :: ds) maxInt64).map (fun n => (n : Int))

/-- Decimal digits of `n`, most significant first (`fuel`-driven). -/
def natDigitsAux : Nat → Nat → GoStr
  | 0, _ => []
  | fuel + 1, n =>
    if n = 0 then [] else natDigitsAux fuel (n / 10) ++ [Char.ofNat (n % 10 + 48)]

/-- Decimal rendering of a natural number (`%d`). -/
def natToStr (n : Nat) : GoStr :=
  if n = 0 then ['0'] else natDigitsAux n n

/-- Decimal rendering of an integer (`%d`). -/
def intToStr (i : Int) : GoStr :=
  if i < 0 then '-' :: natToStr i.natAbs else natToStr i.toNat

/-- Intents of `internal/openai`. -/
inductive Intent where
  | unknown
  | addReminder
  | listReminders
  | deleteReminder
  | clearReminders
  | help
deriving DecidableEq, Repr

/-- Errors of the bot: `userError` values versus plain `fmt.Errorf` failures
(the tagged distinction of §7 of the spec). -/
inductive GoErr where
  | user (msg : GoStr)
  | infra (msg : GoStr)
deriving DecidableEq, Repr

/-- `err.Error()`. -/
def GoErr.text : GoErr → GoStr
  | .user m => m
  | .infra m => m

/-- `model.Reminder`.  `createdAt` is the monotone insertion counter standing
for GORM's `autoCreateTime`; `id` for the auto-increment primary key. -/
structure Reminder where
  id : Nat
  userID : GoStr
  content : GoStr
  priority : Int
  summary : GoStr
  createdAt : Nat
deriving DecidableEq, Repr

/-- `conversationState`. -/
structure ConvState where
  AwaitingPriority : Bool
  PendingMessage : GoStr
deriving DecidableEq, Repr

/-- `conversationStore`: the per-user map, modelled as an association list. -/
abbrev ConvStore := List (GoStr × ConvState)

/-- Map lookup. -/
def lookupState : ConvStore → GoStr → Option ConvState
  | [], _ => none
  | (k, v) :: rest, u => if k = u then some v else lookupState rest u

/-- Removal of a key (`delete(c.state, userID)`). -/
def eraseKey (st : ConvStore) (u : GoStr) : ConvStore :=
  st.filter (fun e => !(e.1 == u))

/-- `SetPendingMessage`: unconditional overwrite, awaiting-priority set. -/
def setPendingMessage (st : ConvStore) (u msg : GoStr) : ConvStore :=
  (u, ⟨true, msg⟩) :: eraseKey st u

/-- `PopPendingMessage`: atomically remove and return the pending text.
`none` models Go's `("", false)` return. -/
def popPendingMessage (st : ConvStore) (u : GoStr) : ConvStore × Option GoStr :=
  match lookupState st u with
  | none => (st, none)
  | some s => (eraseKey st u, some s.PendingMessage)

/-- `IsAwaitingPriority`. -/
def isAwaitingPriority (st : ConvStore) (u : GoStr) : Bool :=
  match lookupState st u with
  | none => false
  | some s => s.AwaitingPriority

/-- The bot's mutable world: conversation store plus reminder repository. -/
structure BotModel where
  store : ConvStore
  db : List Reminder
  nextId : Nat
deriving DecidableEq, Repr

/-- External collaborators: the optional classifier (absent when no API key is
configured), the summarizer as observed through
`summarizeReminderWithOpenAI` (which already applies the content fallback on
error), and the clock formatter used by `listReminders`. -/
structure Caps where
  classify : Option (GoStr → Except Unit Intent)
  summarize : GoStr → GoStr
  fmtTime : Nat → GoStr

/-- Separator class of `parseIndices`' `FieldsFunc`: comma or Unicode space. -/
def isIdxSep (c : Char) : Bool := c = ',' || isUnicodeSpace c

/-- States of the deterministic automaton for
`^\s*\d+(?:[\s,]+\d+)*\s*$`: 0 = in leading `\s*`, 1 = just read a digit,
2 = in a separator run with no comma yet, 3 = in a separator run containing a
comma.  Accepting states at end of input: 1 and 2. -/
def idxDfaStep (state : Nat) (c : Char) : Option Nat :=
  match state with
  | 0 => if isRegexSpace c then some 0 else if isDigitChar c then some 1 else none
  | 1 =>
    if isDigitChar c then some 1
    else if isRegexSpace c then some 2
    else if c = ',' then some 3 else none
  | 2 =>
    if isDigitChar c then some 1
    else if isRegexSpace c then some 2
    else if c = ',' then some 3 else none
  | _ =>
    if isDigitChar c then some 1
    else if isRegexSpace c then some 3
    else if c = ',' then some 3 else none

/-- Run of the automaton from a given state. -/
def idxDfaRun (state : Nat) : GoStr → Bool
  | [] => state = 1 || state = 2
  | c :: rest =>
    match idxDfaStep state c with
    | none => false
    | some s2 => idxDfaRun s2 rest

/-- `indexListPattern.MatchString`: whole-string match of
`^\s*\d+(?:[\s,]+\d+)*\s*$`. -/
def matchIndexList (s : GoStr) : Bool := idxDfaRun 0 s

/-- The comma/whitespace-separated tokens of an index list
(`strings.FieldsFunc(input, r == ',' || unicode.IsSpace(r))`). -/
def idxTokens (s : GoStr) : List GoStr := goFields isIdxSep s

/-- The loop body of `parseIndices`: `strconv.Atoi` each token, reject
non-positive or unparseable values outright (`return nil`), and keep the
first occurrence of each value (`seen` map). -/
def goParseIdx : List GoStr → List Int → Option (List Int)
  | [], _ => some []
  | p :: rest, seen =>
    if p = [] then goParseIdx rest seen
    else
      match goAtoi p with
      | none => none
      | some n =>
        if n ≤ 0 then none
        else if n ∈ seen then goParseIdx rest seen
        else (goParseIdx rest (n :: seen)).map (n :: ·)

/-- `parseIndices`.  A `nil` result of the Go loop and an empty slice coincide
as the empty list. -/
def parseIndices (input : GoStr) : List Int :=
  if matchIndexList input then (goParseIdx (idxTokens input) []).getD [] else []

/-- First-seen-order deduplication. -/
def dedupFirst : List Int → List Int → List Int
  | [], _ => []
  | x :: xs, seen =>
    if x ∈ seen then dedupFirst xs seen else x :: dedupFirst xs (x :: seen)

/-- Modelled from the spec's words for the refinement claim about
`parseIndices`: the integers denoted by the comma/whitespace-separated tokens
of the input, in first-seen order with later duplicates dropped. -/
def specIndices (input : GoStr) : List Int :=
  dedupFirst ((idxTokens input).map (fun t => (digitsToNat t : Int))) []

/-- Scan for the leftmost case-insensitive occurrence of `delete`; returns the
text after it.  This is where a match of the unanchored
`deleteKeywordRegex` must begin. -/
def findDelete : GoStr → Option GoStr
  | [] => none
  | c :: rest =>
    if leadsWith (goToLower (c :: rest)) ("delete".data) then some ((c :: rest).drop 6)
    else findDelete rest

/-- Greedy consumption of the optional `(?:\s+reminder(?:s)?(?:\s+about)?)?`
group right after `delete`; returns the input unchanged when the group cannot
match (the regex then backtracks to skip it). -/
def consumeRemPhrase (s : GoStr) : GoStr :=
  let ws := s.takeWhile isRegexSpace
  let r0 := s.dropWhile isRegexSpace
  if ws ≠ [] && leadsWith (goToLower r0) ("reminder".data) then
    let r1 := r0.drop 8
    let r2 :=
      match r1 with
      | c :: t => if asciiLower c = 's' then t else r1
      | [] => r1
    let ws2 := r2.takeWhile isRegexSpace
    let r3 := r2.dropWhile isRegexSpace
    if ws2 ≠ [] && leadsWith (goToLower r3) ("about".data) then r3.drop 5 else r2
  else s

/-- `extractDeleteKeyword`: first submatch of
`(?i)delete(?:\s+reminder(?:s)?(?:\s+about)?)?\s*(.*)`, trimmed.  The capture
`(.*)` stops at a newline. -/
def extractDeleteKeyword (message : GoStr) : GoStr :=
  match findDelete message with
  | none => []
  | some rest =>
    trimSpace (((consumeRemPhrase rest).dropWhile isRegexSpace).takeWhile (fun c => !(c = '\n')))

/-- `isListRequest`. -/
def isListRequest (body : GoStr) : Bool :=
  containsSubstr body ("show my reminders".data) ||
  containsSubstr body ("list my reminders".data) ||
  containsSubstr body ("show reminders".data) ||
  containsSubstr body ("list reminders".data) ||
  (containsSubstr body ("list".data) && containsSubstr body ("reminder".data))

/-- `isClearAllRequest`. -/
def isClearAllRequest (body : GoStr) : Bool :=
  body = ("clear all reminders".data) ||
  body = ("clear reminders".data) ||
  body = ("delete all reminders".data)

/-- The deterministic rule prefix of `determineIntent` (everything before the
external classifier is consulted); `none` means fall through to it. -/
def deterministicIntent (message lower : GoStr) : Option (Intent × GoStr) :=
  if isClearAllRequest lower then some (.clearReminders, [])
  else if isListRequest lower then some (.listReminders, [])
  else
    let kw := extractDeleteKeyword message
    if kw ≠ [] then some (.deleteReminder, kw) else none

/-- `determineIntent`. -/
def determineIntent (caps : Caps) (message lower : GoStr) : Intent × GoStr :=
  match deterministicIntent message lower with
  | some r => r
  | none =>
    match caps.classify with
    | none => (.addReminder, [])
    | some f =>
      match f message with
      | .error _ => (.addReminder, [])
      | .ok .deleteReminder => (.deleteReminder, extractDeleteKeyword message)
      | .ok .listReminders => (.listReminders, [])
      | .ok .clearReminders => (.clearReminders, [])
      | .ok .help => (.help, [])
      | .ok .addReminder => (.addReminder, [])
      | .ok .unknown => (.addReminder, [])

/-- `ORDER BY priority DESC, created_at ASC` as a relation on reminders. -/
def remLE (a b : Reminder) : Prop :=
  b.priority < a.priority ∨ (a.priority = b.priority ∧ a.createdAt ≤ b.createdAt)

instance : DecidableRel remLE := fun a b => by unfold remLE; infer_instance

instance : IsTotal Reminder remLE := ⟨by intro a b; unfold remLE; omega⟩

instance : IsTrans Reminder remLE := ⟨by intro a b c; unfold remLE; omega⟩

/-- The user's reminders in listing/dispatch order
(`WHERE user_id = ? ORDER BY priority DESC, created_at ASC`). -/
def remindersFor (db : List Reminder) (u : GoStr) : List Reminder :=
  List.insertionSort remLE (db.filter (fun r => r.userID == u))

/-- `fallback(primary, secondary)`. -/
def fallbackText (primary secondary : GoStr) : GoStr :=
  if trimSpace primary = [] then secondary else primary

/-- The numbered lines of `listReminders`' reply. -/
def listLines (fmtTime : Nat → GoStr) : Nat → List Reminder → GoStr
  | _, [] => []
  | i, r :: rest =>
    natToStr (i + 1) ++ (". [".data) ++ intToStr r.priority ++ ("] ".data) ++
    fallbackText r.summary r.content ++ (" â€” saved ".data) ++ fmtTime r.createdAt ++
    ("\n".data) ++ listLines fmtTime (i + 1) rest

/-- `listReminders`: empty string when the user has no reminders. -/
def listRemindersText (fmtTime : Nat → GoStr) (db : List Reminder) (u : GoStr) : GoStr :=
  let rs := remindersFor db u
  if rs = [] then [] else ("Here are your reminders:\n".data) ++ listLines fmtTime 0 rs

/-- `formatIndices`. -/
def formatIndices : List Int → GoStr
  | [] => []
  | [i] => intToStr i
  | i :: rest => intToStr i ++ (", ".data) ++ formatIndices rest

/-- The out-of-range message of `deleteReminderByIndices`. -/
def rangeErrMsg (idx : Int) (count : Nat) : GoStr :=
  ("Reminder ".data) ++ intToStr idx ++ (" doesn't exist. Choose between 1 and ".data) ++
  natToStr count ++ (".".data)

instance : Inhabited Reminder := ⟨⟨0, [], [], 0, [], 0⟩⟩

/-- The id-collecting loop of `deleteReminderByIndices`: fails on the first
index outside `[1, count]`. -/
def collectIds (rs : List Reminder) : List Int → Except GoErr (List Nat)
  | [] => .ok []
  | idx :: rest =>
    if idx < 1 ∨ (rs.length : Int) < idx then
      .error (.user (rangeErrMsg idx rs.length))
    else
      (collectIds rs rest).map (fun ids => ((rs.getD ((idx - 1).toNat) default).id :: ids))

/-- `deleteReminderByIndices`: positions resolve against the listing order;
every index is validated before anything is deleted. -/
def deleteReminderByIndices (m : BotModel) (u : GoStr) (indices : List Int) :
    Except GoErr (BotModel × Nat) :=
  let rs := remindersFor m.db u
  if rs.length = 0 then .error (.user ("You don't have any reminders yet.".data))
  else
    match collectIds rs indices with
    | .error e => .error e
    | .ok ids =>
      let db2 := m.db.filter (fun r => !(r.userID == u && ids.contains r.id))
      let affected := m.db.length - db2.length
      if affected = 0 then
        .error (.user ("I couldn't delete those reminders. Please try again later.".data))
      else .ok ({ m with db := db2 }, affected)

/-- `deleteReminder`: clear-all on empty keyword, otherwise index-list delete
when the keyword parses as indices, otherwise case-insensitive substring
delete.  Repository I/O itself is assumed to succeed (its failures are the
external `res.Error` branches). -/
def deleteReminder (m : BotModel) (u keyword : GoStr) : Except GoErr GoStr × BotModel :=
  let trimmed := trimSpace keyword
  if trimmed = [] then
    let db2 := m.db.filter (fun r => !(r.userID == u))
    let affected := m.db.length - db2.length
    if affected = 0 then
      (.error (.user ("You don't have any reminders to clear.".data)), { m with db := db2 })
    else (.ok ("All reminders cleared.".data), { m with db := db2 })
  else
    match parseIndices trimmed with
    | [] =>
      let db2 := m.db.filter
        (fun r => !(r.userID == u && containsSubstr (goToLower r.content) (goToLower trimmed)))
      let affected := m.db.length - db2.length
      if affected = 0 then
        (.error (.user ("I couldn't find any reminders matching that description.".data)),
         { m with db := db2 })
      else
        (.ok (("Deleted reminders matching '".data) ++ trimmed ++ ("'.".data)),
         { m with db := db2 })
    | i :: rest =>
      match deleteReminderByIndices m u (i :: rest) with
      | .error e => (.error e, m)
      | .ok (m2, _) =>
        (.ok (("Deleted reminder(s): ".data) ++ formatIndices (i :: rest) ++ (".".data)), m2)

/-- `askForPriority`'s text. -/
def askForPriorityMsg : GoStr :=
  ("What priority should I set? Reply with a number between 1 (low) and 5 (high).".data)

/-- The invalid-priority re-prompt. -/
def repromptMsg : GoStr :=
  ("Please send a priority between 1 (lowest) and 5 (highest).".data)

/-- The lost-pending-state reply. -/
def lostTrackMsg : GoStr :=
  ("I lost track of that reminder. Please send it again.".data)

/-- The empty-request reply of the webhook handler. -/
def needMessageMsg : GoStr :=
  ("I need a message to work with. Please try again.".data)

/-- The empty-list reply. -/
def noRemindersMsg : GoStr :=
  ("You have no reminders yet. Send me one to get started!".data)

/-- The missing-delete-target prompt. -/
def whichReminderMsg : GoStr :=
  ("Tell me which reminder to delete, e.g. 'delete reminder about milk'.".data)

/-- `helpResponse`. -/
def helpResponseMsg : GoStr :=
  ("You can say things like:\n- \"Remind me to pay rent\" to add a reminder\n- \"List reminders\" to see everything saved\n- \"Delete reminder about rent\" to remove one\n- \"Clear all reminders\" to wipe everything".data)

/-- The confirmation reply of a completed add flow
(`Got it! I'll remind you: %s (priority %d).`). -/
def confirmMsg (summary : GoStr) (priority : Int) : GoStr :=
  ("Got it! I'll remind you: ".data) ++ summary ++ (" (priority ".data) ++
  intToStr priority ++ (").".data)

/-- The reminder row written by `saveReminder`. -/
def mkReminder (m : BotModel) (u content : GoStr) (priority : Int) (summary : GoStr) :
    Reminder :=
  { id := m.nextId, userID := u, content := content, priority := priority,
    summary := summary, createdAt := m.nextId }

/-- `handlePriorityResponse`: parse the priority, pop the pending text,
summarize and persist.  `summarize` is `summarizeReminderWithOpenAI` (error
fallback already applied). -/
def handlePriorityResponse (summarize : GoStr → GoStr) (m : BotModel) (u body : GoStr) :
    GoStr × BotModel :=
  match goAtoi (trimSpace body) with
  | none => (repromptMsg, m)
  | some priority =>
    if priority < 1 ∨ 5 < priority then (repromptMsg, m)
    else
      match popPendingMessage m.store u with
      | (st2, none) => (lostTrackMsg, { m with store := st2 })
      | (st2, some content) =>
        let summary := summarize content
        (confirmMsg summary priority,
         { store := st2,
           db := m.db ++ [mkReminder m u content priority summary],
           nextId := m.nextId + 1 })

/-- `handleIncomingMessage`: the webhook surface, given the decoded `From` and
`Body` form values. -/
def handleIncomingMessage (caps : Caps) (from_ bodyRaw : GoStr) (m : BotModel) :
    GoStr × BotModel :=
  let body := trimSpace bodyRaw
  if from_ = [] ∨ body = [] then (needMessageMsg, m)
  else
    let userID := sanitizeWhatsAppNumber from_
    let lowerBody := goToLower body
    if isAwaitingPriority m.store userID then handlePriorityResponse caps.summarize m userID body
    else
      match determineIntent caps body lowerBody with
      | (.listReminders, _) =>
        let l := listRemindersText caps.fmtTime m.db userID
        if l = [] then (noRemindersMsg, m) else (l, m)
      | (.clearReminders, _) =>
        match deleteReminder m userID [] with
        | (.error e, m2) => (e.text, m2)
        | (.ok msg, m2) => (msg, m2)
      | (.deleteReminder, kw) =>
        if kw = [] then (whichReminderMsg, m)
        else
          match deleteReminder m userID kw with
          | (.error e, m2) => (e.text, m2)
          | (.ok msg, m2) => (msg, m2)
      | (.help, _) => (helpResponseMsg, m)
      | (_, _) => (askForPriorityMsg, { m with store := setPendingMessage m.store userID body })

/-- Nanoseconds in `time.Hour`. -/
def hourNs : Nat := 3600000000000

/-- The outbound text of one scheduled reminder. -/
def reminderMsg (r : Reminder) : GoStr :=
  ("Reminder: ".data) ++ fallbackText r.summary r.content ++ (" (priority ".data) ++
  intToStr r.priority ++ (")".data)

/-- The delayed-send loop of `dispatchUserReminders`, carrying the running
index: each iteration schedules `(index * time.Hour, message)`. -/
def dispatchFrom : Nat → List Reminder → List (Nat × GoStr)
  | _, [] => []
  | i, r :: rest => (i * hourNs, reminderMsg r) :: dispatchFrom (i + 1) rest

/-- `dispatchUserReminders`: one user's share of a dispatch cycle, as the list
of (delay, outbound text) pairs it schedules. -/
def dispatchUserReminders (db : List Reminder) (u : GoStr) : List (Nat × GoStr) :=
  dispatchFrom 0 (remindersFor db u)

/-- Whether a byte sequence decodes (as UTF-8) to whitespace runes only, i.e.
`strings.TrimSpace` of it is empty.  Bytes that are not part of a whitespace
rune's encoding make it non-blank. -/
def allSpaceBytes : List Nat → Bool
  | [] => true
  | 9 :: rest => allSpaceBytes rest
  | 10 :: rest => allSpaceBytes rest
  | 11 :: rest => allSpaceBytes rest
  | 12 :: rest => allSpaceBytes rest
  | 13 :: rest => allSpaceBytes rest
  | 32 :: rest => allSpaceBytes rest
  | 0xc2 :: 0x85 :: rest => allSpaceBytes rest
  | 0xc2 :: 0xa0 :: rest => allSpaceBytes rest
  | 0xe1 :: 0x9a :: 0x80 :: rest => allSpaceBytes rest
  | 0xe2 :: 0x80 :: b :: rest =>
    if (0x80 ≤ b && b ≤ 0x8a) || b = 0xa8 || b = 0xa9 || b = 0xaf then allSpaceBytes rest
    else false
  | 0xe2 :: 0x81 :: 0x9f :: rest => allSpaceBytes rest
  | 0xe3 :: 0x80 :: 0x80 :: rest => allSpaceBytes rest
  | _ => false

/-- UTF-8 bytes of `"..."`. -/
def ellipsisBytes : List Nat := [46, 46, 46]

/-- `openai.Client.SummarizeReminder` in the unconfigured mode (`client ==
nil`): reject blank content, otherwise truncate at 80 bytes.  Content is the
byte sequence of the Go string. -/
def SummarizeReminder (content : List Nat) : Except GoStr (List Nat) :=
  if allSpaceBytes content then .error ("content cannot be empty".data)
  else if 80 < content.length then .ok (content.take 80 ++ ellipsisBytes)
  else .ok content

theorem leadsWith_self_app (p t : GoStr) : leadsWith (p ++ t) p = true := by
  induction p with
  | nil => cases t <;> rfl
  | cons c ps ih => simp [leadsWith, ih]

theorem containsSubstr_at (a p t : GoStr) : containsSubstr (a ++ (p ++ t)) p = true := by
  induction a with
  | nil =>
    cases p with
    | nil => cases t <;> rfl
    | cons c ps => simpa [containsSubstr] using Or.inl (leadsWith_self_app (c :: ps) t)
  | cons x a2 ih => simp [containsSubstr, ih]

theorem lookupState_eraseKey (st : ConvStore) (u : GoStr) :
    lookupState (eraseKey st u) u = none := by
  induction st with
  | nil => rfl
  | cons e rest ih =>
    by_cases h : e.1 = u
    · simpa [eraseKey, List.filter_cons, h] using ih
    · simpa [eraseKey, List.filter_cons, h, lookupState] using ih

theorem eraseKey_idem (st : ConvStore) (u : GoStr) :
    eraseKey (eraseKey st u) u = eraseKey st u := by
  induction st with
  | nil => rfl
  | cons e rest ih =>
    by_cases h : e.1 = u
    · simp_all [eraseKey, List.filter_cons, h]
    · simp_all [eraseKey, List.filter_cons, h]

theorem pop_after_set (st : ConvStore) (u t : GoStr) :
    popPendingMessage (setPendingMessage st u t) u = (eraseKey st u, some t) := by
  simp [popPendingMessage, setPendingMessage, lookupState, eraseKey, List.filter_cons,
    eraseKey_idem]

theorem pop_absent (st : ConvStore) (u : GoStr) (h : lookupState st u = none) :
    popPendingMessage st u = (st, none) := by
  simp [popPendingMessage, h]

theorem isAwaiting_erase (st : ConvStore) (u : GoStr) :
    isAwaitingPriority (eraseKey st u) u = false := by
  simp [isAwaitingPriority, lookupState_eraseKey]

theorem hpr_valid (sm : GoStr → GoStr) (m : BotModel) (u msg t : GoStr) (p : Int)
    (hst : lookupState m.store u = some ⟨true, t⟩)
    (hp : goAtoi (trimSpace msg) = some p) (h1 : 1 ≤ p) (h5 : p ≤ 5) :
    handlePriorityResponse sm m u msg =
      (confirmMsg (sm t) p,
       { store := eraseKey m.store u,
         db := m.db ++ [mkReminder m u t p (sm t)],
         nextId := m.nextId + 1 }) := by
  unfold handlePriorityResponse
  rw [hp]
  simp only [popPendingMessage, hst]
  rw [if_neg (by omega)]

theorem hpr_invalid (sm : GoStr → GoStr) (m : BotModel) (u msg : GoStr)
    (hbad : ∀ p : Int, goAtoi (trimSpace msg) = some p → p < 1 ∨ 5 < p) :
    handlePriorityResponse sm m u msg = (repromptMsg, m) := by
  unfold handlePriorityResponse
  cases hg : goAtoi (trimSpace msg) with
  | none => rfl
  | some p => simp [if_pos (hbad p hg)]

/-- C1: a user awaiting a priority who sends a message parsing as an integer
priority `p` with `1 ≤ p ≤ 5` completes the add flow: the pending text `t` is
popped, exactly one new reminder with content `t`, priority `p` and the
summarizer's summary is appended to the repository for that user, the
conversation state returns to Idle, and the reply is the confirmation
containing the summary and the priority. -/
theorem claim_C1_add_flow_completes (sm : GoStr → GoStr) (m : BotModel) (u msg t : GoStr)
    (p : Int) (hst : lookupState m.store u = some ⟨true, t⟩)
    (hp : goAtoi (trimSpace msg) = some p) (h1 : 1 ≤ p) (h5 : p ≤ 5) :
    handlePriorityResponse sm m u msg =
      (confirmMsg (sm t) p,
       { store := eraseKey m.store u,
         db := m.db ++ [mkReminder m u t p (sm t)],
         nextId := m.nextId + 1 }) ∧
    lookupState (eraseKey m.store u) u = none ∧
    isAwaitingPriority (eraseKey m.store u) u = false ∧
    containsSubstr (confirmMsg (sm t) p) (sm t) = true ∧
    containsSubstr (confirmMsg (sm t) p) (intToStr p) = true := by
  refine ⟨hpr_valid sm m u msg t p hst hp h1 h5, lookupState_eraseKey m.store u,
    isAwaiting_erase m.store u, ?_, ?_⟩
  · have h := containsSubstr_at ("Got it! I'll remind you: ".data) (sm t)
      ((" (priority ".data) ++ intToStr p ++ (").".data))
    simpa [confirmMsg] using h
  · have h := containsSubstr_at
      ((("Got it! I'll remind you: ".data) ++ sm t) ++ (" (priority ".data))
      (intToStr p) (").".data)
    simpa [confirmMsg] using h

/-- C1 witness: the two-turn flow for pending text "buy milk" and reply "3". -/
theorem claim_C1_add_flow_completes_witness :
    handlePriorityResponse (fun s => s)
        { store := [(("u".data), ⟨true, "buy milk".data⟩)], db := [], nextId := 1 }
        ("u".data) ("3".data) =
      (confirmMsg ("buy milk".data) 3,
       { store := eraseKey [(("u".data), ⟨true, "buy milk".data⟩)] ("u".data),
         db := [] ++ [mkReminder
            { store := [(("u".data), ⟨true, "buy milk".data⟩)], db := [], nextId := 1 }
            ("u".data) ("buy milk".data) 3 ("buy milk".data)],
         nextId := 2 }) ∧
    lookupState (eraseKey [(("u".data), ⟨true, "buy milk".data⟩)] ("u".data)) ("u".data)
      = none ∧
    isAwaitingPriority (eraseKey [(("u".data), ⟨true, "buy milk".data⟩)] ("u".data))
      ("u".data) = false ∧
    containsSubstr (confirmMsg ("buy milk".data) 3) ("buy milk".data) = true ∧
    containsSubstr (confirmMsg ("buy milk".data) 3) (intToStr 3) = true :=
  claim_C1_add_flow_completes (fun s => s)
    { store := [(("u".data), ⟨true, "buy milk".data⟩)], db := [], nextId := 1 }
    ("u".data) ("3".data) ("buy milk".data) 3 (by decide) (by decide) (by decide) (by decide)

/-- C4: while awaiting a priority, a message that does not parse as an integer
in `[1,5]` leaves everything unchanged (the user stays in AwaitingPriority
with the same pending text) and the reply is the re-prompt; a subsequent valid
priority then completes the flow using the original pending text. -/
theorem claim_C4_invalid_priority_keeps_state (sm : GoStr → GoStr) (m : BotModel)
    (u msg t msg2 : GoStr) (p : Int)
    (hst : lookupState m.store u = some ⟨true, t⟩)
    (hbad : ∀ q : Int, goAtoi (trimSpace msg) = some q → q < 1 ∨ 5 < q)
    (hp2 : goAtoi (trimSpace msg2) = some p) (h1 : 1 ≤ p) (h5 : p ≤ 5) :
    handlePriorityResponse sm m u msg = (repromptMsg, m) ∧
    isAwaitingPriority m.store u = true ∧
    handlePriorityResponse sm m u msg2 =
      (confirmMsg (sm t) p,
       { store := eraseKey m.store u,
         db := m.db ++ [mkReminder m u t p (sm t)],
         nextId := m.nextId + 1 }) := by
  refine ⟨hpr_invalid sm m u msg hbad, ?_, hpr_valid sm m u msg2 t p hst hp2 h1 h5⟩
  simp [isAwaitingPriority, hst]

/-- C4 witness: reply "6" re-prompts and keeps the pending text; "2" then
succeeds with the original text. -/
theorem claim_C4_invalid_priority_keeps_state_witness :
    handlePriorityResponse (fun s => s)
        { store := [(("u".data), ⟨true, "buy milk".data⟩)], db := [], nextId := 1 }
        ("u".data) ("6".data) =
      (repromptMsg,
       { store := [(("u".data), ⟨true, "buy milk".data⟩)], db := [], nextId := 1 }) ∧
    isAwaitingPriority [(("u".data), ⟨true, "buy milk".data⟩)] ("u".data) = true ∧
    handlePriorityResponse (fun s => s)
        { store := [(("u".data), ⟨true, "buy milk".data⟩)], db := [], nextId := 1 }
        ("u".data) ("2".data) =
      (confirmMsg ("buy milk".data) 2,
       { store := eraseKey [(("u".data), ⟨true, "buy milk".data⟩)] ("u".data),
         db := [] ++ [mkReminder
            { store := [(("u".data), ⟨true, "buy milk".data⟩)], db := [], nextId := 1 }
            ("u".data) ("buy milk".data) 2 ("buy milk".data)],
         nextId := 2 }) :=
  claim_C4_invalid_priority_keeps_state (fun s => s)
    { store := [(("u".data), ⟨true, "buy milk".data⟩)], db := [], nextId := 1 }
    ("u".data) ("6".data) ("buy milk".data) ("2".data) 2
    (by decide) (by decide) (by decide) (by decide) (by decide)

/-- C5: pending text is consumed at most once.  After `SetPendingMessage u t`,
the first `PopPendingMessage u` returns `t` and removes the entry, so an
immediate second pop finds nothing and leaves the store unchanged, and the
user is no longer awaiting a priority; popping a user with no state returns
nothing and leaves the store unchanged. -/
theorem claim_C5_pop_at_most_once (st : ConvStore) (u t : GoStr) (st0 : ConvStore)
    (h0 : lookupState st0 u = none) :
    popPendingMessage (setPendingMessage st u t) u = (eraseKey st u, some t) ∧
    lookupState (eraseKey st u) u = none ∧
    popPendingMessage (eraseKey st u) u = (eraseKey st u, none) ∧
    isAwaitingPriority (eraseKey st u) u = false ∧
    popPendingMessage st0 u = (st0, none) :=
  ⟨pop_after_set st u t, lookupState_eraseKey st u,
   pop_absent (eraseKey st u) u (lookupState_eraseKey st u), isAwaiting_erase st u,
   pop_absent st0 u h0⟩

theorem idxDfaStep_chars (state : Nat) (c : Char) (s2 : Nat)
    (h : idxDfaStep state c = some s2) : (isDigitChar c || isIdxSep c) = true := by
  have hsp : isRegexSpace c = true → isIdxSep c = true := by
    intro hr
    unfold isRegexSpace at hr
    simp only [Bool.or_eq_true, decide_eq_true_eq] at hr
    rcases hr with ((((h1 | h1) | h1) | h1) | h1) <;> subst h1 <;> decide
  by_cases h1 : isDigitChar c = true
  · simp [h1]
  · by_cases h2 : isRegexSpace c = true
    · simp [hsp h2]
    · by_cases h3 : c = ','
      · subst h3; decide
      · exfalso
        rcases state with _ | _ | _ | st <;> simp [idxDfaStep, h1, h2, h3] at h

theorem idxDfaRun_chars (s : GoStr) : ∀ state, idxDfaRun state s = true →
    ∀ c ∈ s, (isDigitChar c || isIdxSep c) = true := by
  induction s with
  | nil => intro state h c hc; simp at hc
  | cons a rest ih =>
    intro state h c hc
    cases hstep : idxDfaStep state a with
    | none => simp [idxDfaRun, hstep] at h
    | some st2 =>
      simp only [idxDfaRun, hstep] at h
      rcases List.mem_cons.mp hc with h1 | h1
      · subst h1; exact idxDfaStep_chars state c st2 hstep
      · exact ih st2 h c h1

theorem goFields_mem (f : Char → Bool) :
    ∀ (s : GoStr), ∀ t ∈ goFields f s, t ≠ [] ∧ ∀ c ∈ t, f c = false ∧ c ∈ s := by
  intro s
  induction s with
  | nil => intro t ht; simp [goFields] at ht
  | cons a s ih =>
    cases s with
    | nil =>
      intro t ht
      by_cases hfa : f a = true
      · simp [goFields, hfa] at ht
      · simp [goFields, hfa] at ht
        subst ht
        refine ⟨by simp, ?_⟩
        intro c hc
        simp at hc
        subst hc
        exact ⟨by simpa using hfa, by simp⟩
    | cons d rest =>
      intro t ht
      by_cases hfa : f a = true
      · simp only [goFields, if_pos hfa] at ht
        obtain ⟨h1, h2⟩ := ih t ht
        exact ⟨h1, fun c hc => ⟨(h2 c hc).1, List.mem_cons_of_mem a (h2 c hc).2⟩⟩
      · simp only [goFields, if_neg hfa] at ht
        cases hfd : f d with
        | true =>
          simp only [hfd] at ht
          rcases List.mem_cons.mp ht with h1 | h1
          · subst h1
            refine ⟨by simp, ?_⟩
            intro c hc
            simp at hc
            subst hc
            exact ⟨by simpa using hfa, by simp⟩
          · obtain ⟨hb1, hb2⟩ := ih t h1
            exact ⟨hb1, fun c hc => ⟨(hb2 c hc).1, List.mem_cons_of_mem a (hb2 c hc).2⟩⟩
        | false =>
          cases hgf : goFields f (d :: rest) with
          | nil =>
            simp only [hfd, hgf] at ht
            rcases List.mem_cons.mp ht with h1 | h1
            · subst h1
              refine ⟨by simp, ?_⟩
              intro c hc
              simp at hc
              subst hc
              exact ⟨by simpa using hfa, by simp⟩
            · simp at h1
          | cons t1 ts =>
            simp only [hfd, hgf] at ht
            rcases List.mem_cons.mp ht with h1 | h1
            · subst h1
              refine ⟨by simp, ?_⟩
              intro c hc
              rcases List.mem_cons.mp hc with h2 | h2
              · subst h2; exact ⟨by simpa using hfa, by simp⟩
              · have hm := ih t1 (by rw [hgf]; exact List.mem_cons_self t1 ts)
                exact ⟨(hm.2 c h2).1, List.mem_cons_of_mem a (hm.2 c h2).2⟩
            · have hm := ih t (by rw [hgf]; exact List.mem_cons_of_mem t1 h1)
              exact ⟨hm.1, fun c hc => ⟨(hm.2 c hc).1, List.mem_cons_of_mem a (hm.2 c hc).2⟩⟩

theorem idxTokens_digits (s : GoStr) (hm : matchIndexList s = true) :
    ∀ t ∈ idxTokens s, t ≠ [] ∧ t.all isDigitChar = true := by
  have hchars := idxDfaRun_chars s 0 hm
  intro t ht
  obtain ⟨h1, h2⟩ := goFields_mem isIdxSep s t ht
  refine ⟨h1, ?_⟩
  rw [List.all_eq_true]
  intro c hc
  have hf := (h2 c hc).1
  have hd := hchars c (h2 c hc).2
  rw [hf] at hd
  simpa using hd

theorem goAtoi_digits (t : GoStr) (hne : t ≠ []) (hdig : t.all isDigitChar = true)
    (hb : digitsToNat t ≤ maxInt64) : goAtoi t = some ((digitsToNat t : Int)) := by
  cases t with
  | nil => exact absurd rfl hne
  | cons c ds =>
    have hc : isDigitChar c = true := by
      rw [List.all_eq_true] at hdig
      exact hdig c (List.mem_cons_self c ds)
    have hcp : ¬(c = '+') := by intro h; rw [h] at hc; exact absurd hc (by decide)
    have hcm : ¬(c = '-') := by intro h; rw [h] at hc; exact absurd hc (by decide)
    have hcond : ((c :: ds ≠ []) && ((c :: ds).all isDigitChar) &&
        (digitsToNat (c :: ds) ≤ maxInt64)) = true := by
      simp [hdig, hb]
    simp only [goAtoi, if_neg hcp, if_neg hcm, goAtoiDigits, if_pos hcond]
    rfl

theorem goParse_spec : ∀ (tokens : List GoStr) (seen : List Int),
    (∀ t ∈ tokens, t ≠ [] ∧ t.all isDigitChar = true ∧ 0 < digitsToNat t ∧
      digitsToNat t ≤ maxInt64) →
    goParseIdx tokens seen =
      some (dedupFirst (tokens.map (fun t => (digitsToNat t : Int))) seen) := by
  intro tokens
  induction tokens with
  | nil => intro seen _; rfl
  | cons t rest ih =>
    intro seen h
    obtain ⟨hne, hdig, hpos, hbound⟩ := h t (List.mem_cons_self t rest)
    have hrest := fun t2 ht2 => h t2 (List.mem_cons_of_mem t ht2)
    have hA := goAtoi_digits t hne hdig hbound
    simp only [goParseIdx, if_neg hne, hA, List.map_cons]
    rw [if_neg (by omega)]
    by_cases hmem : ((digitsToNat t : Int)) ∈ seen
    · rw [if_pos hmem]
      simp only [dedupFirst, if_pos hmem]
      exact ih seen hrest
    · rw [if_neg hmem]
      simp only [dedupFirst, if_neg hmem]
      rw [ih _ hrest]
      rfl

theorem goParse_zero : ∀ (tokens : List GoStr) (seen : List Int),
    (∃ t ∈ tokens, t ≠ [] ∧ t.all isDigitChar = true ∧ digitsToNat t = 0) →
    goParseIdx tokens seen = none := by
  intro tokens
  induction tokens with
  | nil => intro seen h; simp at h
  | cons t rest ih =>
    intro seen h
    rcases h with ⟨w, hw, hprop⟩
    rcases List.mem_cons.mp hw with heq | hmem
    · subst heq
      obtain ⟨hne, hdig, hz⟩ := hprop
      have hA := goAtoi_digits w hne hdig (by rw [hz]; exact Nat.zero_le _)
      simp only [goParseIdx, if_neg hne, hA]
      rw [if_pos (by omega)]
    · have hzrest : ∃ t2 ∈ rest, t2 ≠ [] ∧ t2.all isDigitChar = true ∧
          digitsToNat t2 = 0 := ⟨w, hmem, hprop⟩
      by_cases hte : t = []
      · simp only [goParseIdx, if_pos hte]
        exact ih seen hzrest
      · cases hA : goAtoi t with
        | none => simp [goParseIdx, if_neg hte, hA]
        | some n =>
          simp only [goParseIdx, if_neg hte, hA]
          by_cases hn : n ≤ 0
          · rw [if_pos hn]
          · rw [if_neg hn]
            by_cases hmem2 : n ∈ seen
            · rw [if_pos hmem2]
              exact ih seen hzrest
            · rw [if_neg hmem2, ih (n :: seen) hzrest]
              rfl

/-- C3 counterexample: `"9223372036854775808"` (2^63) wholly matches the index
regex and denotes a positive integer, yet `parseIndices` yields no indices
because Go's `strconv.Atoi` overflows 64-bit `int`; the claim predicts the
singleton list. -/
theorem cex_C3_overflow :
    matchIndexList ("9223372036854775808".data) = true ∧
    (∀ t ∈ idxTokens ("9223372036854775808".data), 0 < digitsToNat t) ∧
    parseIndices ("9223372036854775808".data) = [] ∧
    specIndices ("9223372036854775808".data) = [(9223372036854775808 : Int)] := by
  decide

/-- C3 (amended): for every input wholly matching `^\s*\d+([\s,]+\d+)*\s*$`
whose numeric tokens are positive and each at most 9223372036854775807 (the
largest 64-bit signed integer, beyond which `strconv.Atoi` fails),
`parseIndices` returns those integers in first-seen order with later
duplicates dropped; for every non-matching input (non-digit tokens, negative
numbers, the empty string) it returns no indices, and a matching input
containing a zero token also returns no indices. -/
theorem claim_C3_parseIndices (s s2 s3 : GoStr)
    (hm : matchIndexList s = true)
    (hpos : ∀ t ∈ idxTokens s, 0 < digitsToNat t)
    (hbound : ∀ t ∈ idxTokens s, digitsToNat t ≤ maxInt64)
    (h2 : matchIndexList s2 = false)
    (h3m : matchIndexList s3 = true)
    (h3z : ∃ t ∈ idxTokens s3, digitsToNat t = 0) :
    parseIndices s = specIndices s ∧ parseIndices s2 = [] ∧ parseIndices s3 = [] := by
  refine ⟨?_, ?_, ?_⟩
  · have htok := idxTokens_digits s hm
    unfold parseIndices specIndices
    rw [if_pos hm]
    rw [goParse_spec (idxTokens s) []
      (fun t ht => ⟨(htok t ht).1, (htok t ht).2, hpos t ht, hbound t ht⟩)]
    rfl
  · unfold parseIndices
    rw [if_neg (by simp [h2])]
  · have htok := idxTokens_digits s3 h3m
    unfold parseIndices
    rw [if_pos h3m]
    rcases h3z with ⟨w, hw, hz⟩
    rw [goParse_zero (idxTokens s3) []
      ⟨w, hw, (htok w hw).1, (htok w hw).2, hz⟩]
    rfl

/-- C3 witness: "1,1,2" parses to the deduplicated [1, 2]; "1," and "1 0 2"
yield no indices. -/
theorem claim_C3_parseIndices_witness :
    parseIndices ("1,1,2".data) = specIndices ("1,1,2".data) ∧
    parseIndices ("1,".data) = [] ∧
    parseIndices ("1 0 2".data) = [] :=
  claim_C3_parseIndices ("1,1,2".data) ("1,".data) ("1 0 2".data)
    (by decide) (by decide) (by decide) (by decide) (by decide) (by decide)

theorem collectIds_err (rs : List Reminder) (indices : List Int) (i : Int)
    (hfind : indices.find?
        (fun idx => decide (idx < 1 ∨ (rs.length : Int) < idx)) = some i) :
    collectIds rs indices = .error (.user (rangeErrMsg i rs.length)) := by
  induction indices with
  | nil => simp [List.find?] at hfind
  | cons idx rest ih =>
    by_cases hb : idx < 1 ∨ (rs.length : Int) < idx
    · have : i = idx := by
        rw [List.find?_cons_of_pos _ (by simpa using hb)] at hfind
        exact (Option.some_inj.mp hfind).symm
      subst this
      unfold collectIds
      rw [if_pos hb]
    · rw [List.find?_cons_of_neg _ (by simpa using hb)] at hfind
      unfold collectIds
      rw [if_neg hb, ih hfind]
      rfl

theorem dbi_err (m : BotModel) (u : GoStr) (indices : List Int) (i : Int)
    (hfind : indices.find?
        (fun idx => decide (idx < 1 ∨ ((remindersFor m.db u).length : Int) < idx))
        = some i) :
    deleteReminderByIndices m u indices =
      .error (.user (if (remindersFor m.db u).length = 0 then
        ("You don't have any reminders yet.".data)
      else rangeErrMsg i (remindersFor m.db u).length)) := by
  unfold deleteReminderByIndices
  by_cases h0 : (remindersFor m.db u).length = 0
  · rw [if_pos h0, if_pos h0]
  · rw [if_neg h0, if_neg h0, collectIds_err (remindersFor m.db u) indices i hfind]

theorem parseIndices_nil : parseIndices [] = [] := by decide

/-- C2 counterexample: for a user with no reminders, the index 1 is outside
`[1, 0]`, yet the failure message is "You don't have any reminders yet.",
which does not name a valid range (deletion is still atomic: nothing is
deleted). -/
theorem cex_C2_empty_repo_error_names_no_range :
    ((1 : Int) < 1 ∨
      ((remindersFor ([] : List Reminder) ("alice".data)).length : Int) < 1) ∧
    deleteReminderByIndices { store := [], db := [], nextId := 1 } ("alice".data) [1] =
      .error (.user ("You don't have any reminders yet.".data)) ∧
    containsSubstr ("You don't have any reminders yet.".data) ("between".data) = false := by
  decide

/-- C2 (amended): delete-by-index-list is atomic.  If any index is outside
`[1, count]` (positions in priority-descending, creation-ascending order), the
whole request fails with a user-facing error and the model is unchanged — no
partial deletion.  When the user has at least one reminder the error is the
range message for the first offending index, which names the valid range
"between 1 and count"; when the user has none it is "You don't have any
reminders yet.". -/
theorem claim_C2_index_delete_atomic (m : BotModel) (u : GoStr) (indices : List Int)
    (i : Int) (kw : GoStr)
    (hfind : indices.find?
        (fun idx => decide (idx < 1 ∨ ((remindersFor m.db u).length : Int) < idx))
        = some i)
    (hkw : parseIndices (trimSpace kw) = indices) :
    deleteReminderByIndices m u indices =
      .error (.user (if (remindersFor m.db u).length = 0 then
        ("You don't have any reminders yet.".data)
      else rangeErrMsg i (remindersFor m.db u).length)) ∧
    deleteReminder m u kw =
      (.error (.user (if (remindersFor m.db u).length = 0 then
        ("You don't have any reminders yet.".data)
      else rangeErrMsg i (remindersFor m.db u).length)), m) ∧
    containsSubstr (rangeErrMsg i (remindersFor m.db u).length)
      (("between 1 and ".data) ++ natToStr (remindersFor m.db u).length) = true := by
  have herr := dbi_err m u indices i hfind
  have hne : indices ≠ [] := by
    intro hnil
    rw [hnil] at hfind
    simp [List.find?] at hfind
  refine ⟨herr, ?_, ?_⟩
  · have htr : trimSpace kw ≠ [] := by
      intro h
      rw [h, parseIndices_nil] at hkw
      exact hne hkw.symm
    unfold deleteReminder
    rw [if_neg htr]
    cases hidx : parseIndices (trimSpace kw) with
    | nil => exact absurd (hkw ▸ hidx.symm) (fun h => hne h.symm)
    | cons j rest =>
      have : indices = j :: rest := by rw [← hkw, hidx]
      subst this
      simp only [herr]
  · have hsplit : rangeErrMsg i (remindersFor m.db u).length =
        (("Reminder ".data) ++ intToStr i ++ (" doesn't exist. Choose ".data)) ++
        (((("between 1 and ".data) ++ natToStr (remindersFor m.db u).length)) ++
          (".".data)) := by
      unfold rangeErrMsg
      have : (" doesn't exist. Choose between 1 and ".data) =
          (" doesn't exist. Choose ".data) ++ ("between 1 and ".data) := by decide
      rw [this]
      simp [List.append_assoc]
    rw [hsplit]
    exact containsSubstr_at _ _ _

/-- C2 witness: with three reminders, the request "1,4" fails atomically with
an error naming the range 1..3. -/
theorem claim_C2_index_delete_atomic_witness :
    deleteReminderByIndices
        { store := [],
          db := [⟨1, "u".data, "a".data, 1, [], 1⟩, ⟨2, "u".data, "b".data, 2, [], 2⟩,
                 ⟨3, "u".data, "c".data, 3, [], 3⟩],
          nextId := 4 } ("u".data) [1, 4] =
      .error (.user (if (remindersFor
          [⟨1, "u".data, "a".data, 1, [], 1⟩, ⟨2, "u".data, "b".data, 2, [], 2⟩,
           ⟨3, "u".data, "c".data, 3, [], 3⟩] ("u".data)).length = 0 then
        ("You don't have any reminders yet.".data)
      else rangeErrMsg 4 (remindersFor
          [⟨1, "u".data, "a".data, 1, [], 1⟩, ⟨2, "u".data, "b".data, 2, [], 2⟩,
           ⟨3, "u".data, "c".data, 3, [], 3⟩] ("u".data)).length)) ∧
    deleteReminder
        { store := [],
          db := [⟨1, "u".data, "a".data, 1, [], 1⟩, ⟨2, "u".data, "b".data, 2, [], 2⟩,
                 ⟨3, "u".data, "c".data, 3, [], 3⟩],
          nextId := 4 } ("u".data) ("1,4".data) =
      (.error (.user (if (remindersFor
          [⟨1, "u".data, "a".data, 1, [], 1⟩, ⟨2, "u".data, "b".data, 2, [], 2⟩,
           ⟨3, "u".data, "c".data, 3, [], 3⟩] ("u".data)).length = 0 then
        ("You don't have any reminders yet.".data)
      else rangeErrMsg 4 (remindersFor
          [⟨1, "u".data, "a".data, 1, [], 1⟩, ⟨2, "u".data, "b".data, 2, [], 2⟩,
           ⟨3, "u".data, "c".data, 3, [], 3⟩] ("u".data)).length)),
       { store := [],
         db := [⟨1, "u".data, "a".data, 1, [], 1⟩, ⟨2, "u".data, "b".data, 2, [], 2⟩,
                ⟨3, "u".data, "c".data, 3, [], 3⟩],
         nextId := 4 }) ∧
    containsSubstr (rangeErrMsg 4 (remindersFor
          [⟨1, "u".data, "a".data, 1, [], 1⟩, ⟨2, "u".data, "b".data, 2, [], 2⟩,
           ⟨3, "u".data, "c".data, 3, [], 3⟩] ("u".data)).length)
      (("between 1 and ".data) ++ natToStr (remindersFor
          [⟨1, "u".data, "a".data, 1, [], 1⟩, ⟨2, "u".data, "b".data, 2, [], 2⟩,
           ⟨3, "u".data, "c".data, 3, [], 3⟩] ("u".data)).length) = true :=
  claim_C2_index_delete_atomic
    { store := [],
      db := [⟨1, "u".data, "a".data, 1, [], 1⟩, ⟨2, "u".data, "b".data, 2, [], 2⟩,
             ⟨3, "u".data, "c".data, 3, [], 3⟩],
      nextId := 4 } ("u".data) [1, 4] 4 ("1,4".data) (by decide) (by decide)

theorem dispatchFrom_map_snd (l : List Reminder) (i : Nat) :
    (dispatchFrom i l).map Prod.snd = l.map reminderMsg := by
  induction l generalizing i with
  | nil => rfl
  | cons r rest ih => simp [dispatchFrom, ih]

theorem dispatchFrom_getElem (l : List Reminder) (i n : Nat) :
    (dispatchFrom i l)[n]? = (l[n]?).map (fun r => ((i + n) * hourNs, reminderMsg r)) := by
  induction l generalizing i n with
  | nil => simp [dispatchFrom]
  | cons r rest ih =>
    cases n with
    | zero => simp [dispatchFrom]
    | succ k =>
      simp only [dispatchFrom, List.getElem?_cons_succ, ih (i + 1) k]
      have : i + 1 + k = i + (k + 1) := by omega
      rw [this]

/-- C8: for a user with at least one reminder, one dispatch cycle schedules
each of that user's reminders exactly once, in priority-descending then
creation-ascending order, the Nth scheduled send (0-indexed) being delayed by
N hours, so the highest-priority reminder goes out first with no delay. -/
theorem claim_C8_dispatch_order_and_spacing (db : List Reminder) (u : GoStr) (n : Nat)
    (h : remindersFor db u ≠ []) :
    (dispatchUserReminders db u).map Prod.snd = (remindersFor db u).map reminderMsg ∧
    (remindersFor db u).Perm (db.filter (fun r => r.userID == u)) ∧
    List.Sorted remLE (remindersFor db u) ∧
    (dispatchUserReminders db u)[n]? =
      ((remindersFor db u)[n]?).map (fun r => (n * hourNs, reminderMsg r)) ∧
    (dispatchUserReminders db u).head?.map Prod.fst = some 0 := by
  refine ⟨dispatchFrom_map_snd _ 0, List.perm_insertionSort remLE _,
    List.sorted_insertionSort remLE _, ?_, ?_⟩
  · have hg := dispatchFrom_getElem (remindersFor db u) 0 n
    simpa [dispatchUserReminders] using hg
  · unfold dispatchUserReminders
    cases hrs : remindersFor db u with
    | nil => exact absurd hrs h
    | cons r rest => simp [dispatchFrom]

/-- C8 witness: two reminders of priorities 1 and 5; the priority-5 one is sent
first with no delay, the other one hour later. -/
theorem claim_C8_dispatch_order_and_spacing_witness :
    (dispatchUserReminders
        [⟨1, "u".data, "a".data, 1, [], 1⟩, ⟨2, "u".data, "b".data, 5, [], 2⟩]
        ("u".data)).map Prod.snd =
      (remindersFor
        [⟨1, "u".data, "a".data, 1, [], 1⟩, ⟨2, "u".data, "b".data, 5, [], 2⟩]
        ("u".data)).map reminderMsg ∧
    (remindersFor
        [⟨1, "u".data, "a".data, 1, [], 1⟩, ⟨2, "u".data, "b".data, 5, [], 2⟩]
        ("u".data)).Perm
      (([⟨1, "u".data, "a".data, 1, [], 1⟩, ⟨2, "u".data, "b".data, 5, [], 2⟩] :
        List Reminder).filter (fun r => r.userID == ("u".data))) ∧
    List.Sorted remLE (remindersFor
        [⟨1, "u".data, "a".data, 1, [], 1⟩, ⟨2, "u".data, "b".data, 5, [], 2⟩]
        ("u".data)) ∧
    (dispatchUserReminders
        [⟨1, "u".data, "a".data, 1, [], 1⟩, ⟨2, "u".data, "b".data, 5, [], 2⟩]
        ("u".data))[1]? =
      ((remindersFor
        [⟨1, "u".data, "a".data, 1, [], 1⟩, ⟨2, "u".data, "b".data, 5, [], 2⟩]
        ("u".data))[1]?).map (fun r => (1 * hourNs, reminderMsg r)) ∧
    (dispatchUserReminders
        [⟨1, "u".data, "a".data, 1, [], 1⟩, ⟨2, "u".data, "b".data, 5, [], 2⟩]
        ("u".data)).head?.map Prod.fst = some 0 :=
  claim_C8_dispatch_order_and_spacing
    [⟨1, "u".data, "a".data, 1, [], 1⟩, ⟨2, "u".data, "b".data, 5, [], 2⟩]
    ("u".data) 1 (by decide)

/-- C10: a webhook request with an empty sender or a blank body is answered
with the fixed "I need a message to work with" text and touches nothing: the
conversation store and the repository are returned unchanged, and the reply is
neither the invalid-priority re-prompt nor the add-flow prompt, so a
whitespace-only message from a user in AwaitingPriority neither re-prompts nor
consumes the pending text. -/
theorem claim_C10_blank_request_rejected_early (caps : Caps) (from_ bodyRaw : GoStr)
    (m : BotModel) (h : from_ = [] ∨ trimSpace bodyRaw = []) :
    handleIncomingMessage caps from_ bodyRaw m = (needMessageMsg, m) ∧
    needMessageMsg ≠ repromptMsg ∧
    needMessageMsg ≠ askForPriorityMsg := by
  refine ⟨?_, by decide, by decide⟩
  unfold handleIncomingMessage
  rw [if_pos h]

/-- C10 witness: a whitespace-only body from a user who is awaiting a
priority. -/
theorem claim_C10_blank_request_rejected_early_witness :
    handleIncomingMessage ⟨none, fun s => s, fun _ => []⟩ ("whatsapp:+123".data) ("   ".data)
        { store := [(("+123".data), ⟨true, "x".data⟩)], db := [], nextId := 1 } =
      (needMessageMsg,
       { store := [(("+123".data), ⟨true, "x".data⟩)], db := [], nextId := 1 }) ∧
    needMessageMsg ≠ repromptMsg ∧
    needMessageMsg ≠ askForPriorityMsg :=
  claim_C10_blank_request_rejected_early ⟨none, fun s => s, fun _ => []⟩
    ("whatsapp:+123".data) ("   ".data)
    { store := [(("+123".data), ⟨true, "x".data⟩)], db := [], nextId := 1 }
    (Or.inr (by decide))

/-- C9 counterexample: the claim promises that every non-empty content string
is summarized without error, but the single-space content `" "` is non-empty
and `SummarizeReminder` rejects it with "content cannot be empty". -/
theorem cex_C9_whitespace_content_errors :
    ([32] : List Nat) ≠ [] ∧
    SummarizeReminder [32] ≠ .ok [32] ∧
    SummarizeReminder [32] = .error ("content cannot be empty".data) := by
  decide

/-- C9 (amended): with no external capability configured, for every content
whose bytes are not exclusively whitespace, `SummarizeReminder` succeeds,
returning the content unchanged when it is at most 80 bytes long and otherwise
its first 80 bytes followed by "...". -/
theorem claim_C9_truncation_fallback (content : List Nat)
    (h : allSpaceBytes content = false) :
    SummarizeReminder content =
      .ok (if 80 < content.length then content.take 80 ++ ellipsisBytes else content) := by
  unfold SummarizeReminder
  rw [if_neg (by simp [h])]
  split <;> rfl

/-- C9 witness: a short content is returned unchanged. -/
theorem claim_C9_truncation_fallback_witness :
    SummarizeReminder [104, 105] =
      .ok (if 80 < ([104, 105] : List Nat).length then
            ([104, 105] : List Nat).take 80 ++ ellipsisBytes else [104, 105]) :=
  claim_C9_truncation_fallback [104, 105] (by decide)

theorem findDelete_of_not_contains (msg : GoStr)
    (h : containsSubstr (goToLower msg) ("delete".data) = false) :
    findDelete msg = none := by
  induction msg with
  | nil => rfl
  | cons c rest ih =>
    rw [show goToLower (c :: rest) = asciiLower c :: goToLower rest from rfl,
      containsSubstr] at h
    rw [Bool.or_eq_false_iff] at h
    unfold findDelete
    rw [show goToLower (c :: rest) = asciiLower c :: goToLower rest from rfl]
    rw [if_neg (by simp [h.1]), ih h.2]

/-- C6 counterexample: the delete regex is unanchored, so the message
"please delete milk", which does not begin with a delete-like phrase (all of
which begin with "delete"), still yields the non-empty keyword "milk". -/
theorem cex_C6_unanchored_delete :
    extractDeleteKeyword ("please delete milk".data) = ("milk".data) ∧
    leadsWith (goToLower ("please delete milk".data)) ("delete".data) = false := by
  decide

/-- C6 (amended): `extractDeleteKeyword` returns a non-empty keyword only when
the message contains "delete" (case-insensitively) somewhere — not necessarily
at its start — and returns the empty string for every message with no
case-insensitive occurrence of "delete". -/
theorem claim_C6_delete_keyword_needs_delete (msg msg2 : GoStr)
    (h : containsSubstr (goToLower msg) ("delete".data) = false)
    (h2 : extractDeleteKeyword msg2 ≠ []) :
    extractDeleteKeyword msg = [] ∧
    containsSubstr (goToLower msg2) ("delete".data) = true := by
  constructor
  · unfold extractDeleteKeyword
    rw [findDelete_of_not_contains msg h]
  · by_contra hc
    apply h2
    unfold extractDeleteKeyword
    rw [findDelete_of_not_contains msg2 (by simpa using hc)]

/-- C6 witness: "hello" yields no keyword; "delete reminder about rent" has a
non-empty keyword and indeed contains "delete". -/
theorem claim_C6_delete_keyword_needs_delete_witness :
    extractDeleteKeyword ("hello".data) = [] ∧
    containsSubstr (goToLower ("delete reminder about rent".data)) ("delete".data) = true :=
  claim_C6_delete_keyword_needs_delete ("hello".data) ("delete reminder about rent".data)
    (by decide) (by decide)

/-- C7 counterexample: "show me the reminder" contains "show" and "reminder"
and is not a clear-all phrase, yet the deterministic rules do not classify it
as the list intent — with no external classifier it becomes an add. -/
theorem cex_C7_show_reminder_not_list :
    containsSubstr (goToLower ("show me the reminder".data)) ("show".data) = true ∧
    containsSubstr (goToLower ("show me the reminder".data)) ("reminder".data) = true ∧
    isClearAllRequest (goToLower ("show me the reminder".data)) = false ∧
    deterministicIntent ("show me the reminder".data)
      (goToLower ("show me the reminder".data)) ≠
      some (.listReminders, []) ∧
    determineIntent ⟨none, fun s => s, fun _ => []⟩ ("show me the reminder".data)
      (goToLower ("show me the reminder".data)) = (.addReminder, []) := by
  decide

theorem leadsWith_exists (p : GoStr) : ∀ s, leadsWith s p = true → ∃ b, s = p ++ b := by
  induction p with
  | nil => intro s _; exact ⟨s, rfl⟩
  | cons c ps ih =>
    intro s h
    cases s with
    | nil => simp [leadsWith] at h
    | cons d s2 =>
      simp only [leadsWith, Bool.and_eq_true, beq_iff_eq] at h
      obtain ⟨rfl, h2⟩ := h
      obtain ⟨b, rfl⟩ := ih s2 h2
      exact ⟨b, rfl⟩

theorem containsSubstr_exists (p : GoStr) : ∀ s, containsSubstr s p = true →
    ∃ a b, s = a ++ (p ++ b) := by
  intro s
  induction s with
  | nil =>
    intro h
    cases p with
    | nil => exact ⟨[], [], rfl⟩
    | cons c ps => simp [containsSubstr] at h
  | cons c rest ih =>
    intro h
    simp only [containsSubstr, Bool.or_eq_true] at h
    rcases h with h | h
    · obtain ⟨b, hb⟩ := leadsWith_exists p (c :: rest) h
      exact ⟨[], b, by simpa using hb⟩
    · obtain ⟨a, b, hab⟩ := ih h
      exact ⟨c :: a, b, by simp [hab]⟩

theorem containsSubstr_trans (s p q : GoStr) (h1 : containsSubstr s p = true)
    (h2 : containsSubstr p q = true) : containsSubstr s q = true := by
  obtain ⟨a2, b2, hab2⟩ := containsSubstr_exists q p h2
  subst hab2
  obtain ⟨a, b, hab⟩ := containsSubstr_exists (a2 ++ (q ++ b2)) s h1
  subst hab
  have h := containsSubstr_at (a ++ a2) q (b2 ++ b)
  simpa [List.append_assoc] using h

/-- C7 (amended): every message whose lowercased text contains both "list" and
"reminder" is classified as the list intent by the deterministic rules, before
any external classification is consulted (such a text is never an exact
clear-all phrase); a message whose lowercased text contains neither "list" nor
one of the exact phrases "show my reminders" / "show reminders" is never
classified as the list intent by the deterministic rules — in particular
"show" together with "reminder" triggers the list intent only through those
exact phrases. -/
theorem claim_C7_list_rule (caps : Caps) (message lower message2 lower2 kw : GoStr)
    (hl : containsSubstr lower ("list".data) = true)
    (hr : containsSubstr lower ("reminder".data) = true)
    (h2l : containsSubstr lower2 ("list".data) = false)
    (h2s1 : containsSubstr lower2 ("show my reminders".data) = false)
    (h2s2 : containsSubstr lower2 ("show reminders".data) = false) :
    deterministicIntent message lower = some (.listReminders, []) ∧
    determineIntent caps message lower = (.listReminders, []) ∧
    isListRequest lower2 = false ∧
    deterministicIntent message2 lower2 ≠ some (.listReminders, kw) := by
  have hclear : isClearAllRequest lower = false := by
    unfold isClearAllRequest
    by_cases h1 : lower = ("clear all reminders".data)
    · rw [h1] at hl; exact absurd hl (by decide)
    · by_cases h2 : lower = ("clear reminders".data)
      · rw [h2] at hl; exact absurd hl (by decide)
      · by_cases h3 : lower = ("delete all reminders".data)
        · rw [h3] at hl; exact absurd hl (by decide)
        · simp [h1, h2, h3]
  have hlist : isListRequest lower = true := by
    unfold isListRequest
    rw [hl, hr]
    simp
  have hdet : deterministicIntent message lower = some (.listReminders, []) := by
    unfold deterministicIntent
    rw [hclear, hlist]
    rfl
  have hlm : containsSubstr lower2 ("list my reminders".data) = false := by
    by_contra hcc
    have ht : containsSubstr lower2 ("list".data) = true :=
      containsSubstr_trans lower2 ("list my reminders".data) ("list".data)
        (by simpa using hcc) (by decide)
    simp [ht] at h2l
  have hlr : containsSubstr lower2 ("list reminders".data) = false := by
    by_contra hcc
    have ht : containsSubstr lower2 ("list".data) = true :=
      containsSubstr_trans lower2 ("list reminders".data) ("list".data)
        (by simpa using hcc) (by decide)
    simp [ht] at h2l
  have hlist2 : isListRequest lower2 = false := by
    unfold isListRequest
    rw [h2s1, hlm, h2s2, hlr, h2l]
    rfl
  refine ⟨hdet, by unfold determineIntent; rw [hdet], hlist2, ?_⟩
  intro hcon
  unfold deterministicIntent at hcon
  by_cases hca : isClearAllRequest lower2 = true
  · rw [if_pos hca] at hcon
    simp at hcon
  · rw [if_neg hca, if_neg (by simp [hlist2])] at hcon
    have hcon2 : (if extractDeleteKeyword message2 ≠ [] then
        some ((Intent.deleteReminder, extractDeleteKeyword message2))
      else none) = some ((Intent.listReminders, kw)) := hcon
    by_cases hkw : extractDeleteKeyword message2 ≠ []
    · rw [if_pos hkw] at hcon2
      simp at hcon2
    · rw [if_neg hkw] at hcon2
      simp at hcon2

/-- C7 witness: "please list my reminder" is deterministically the list
intent; "show me the reminder", lacking "list" and both exact show phrases, is
not. -/
theorem claim_C7_list_rule_witness :
    deterministicIntent ("please list my reminder".data)
      (goToLower ("please list my reminder".data)) = some (.listReminders, []) ∧
    determineIntent ⟨none, fun s => s, fun _ => []⟩ ("please list my reminder".data)
      (goToLower ("please list my reminder".data)) = (.listReminders, []) ∧
    isListRequest (goToLower ("show me the reminder".data)) = false ∧
    deterministicIntent ("show me the reminder".data)
      (goToLower ("show me the reminder".data)) ≠ some (.listReminders, []) :=
  claim_C7_list_rule ⟨none, fun s => s, fun _ => []⟩ ("please list my reminder".data)
    (goToLower ("please list my reminder".data)) ("show me the reminder".data)
    (goToLower ("show me the reminder".data)) []
    (by decide) (by decide) (by decide) (by decide) (by decide)

/-- C5 witness: a concrete set/pop/pop sequence. -/
theorem claim_C5_pop_at_most_once_witness :
    popPendingMessage (setPendingMessage [] ("a".data) ("x".data)) ("a".data) =
      (eraseKey [] ("a".data), some ("x".data)) ∧
    lookupState (eraseKey [] ("a".data)) ("a".data) = none ∧
    popPendingMessage (eraseKey [] ("a".data)) ("a".data) = (eraseKey [] ("a".data), none) ∧
    isAwaitingPriority (eraseKey [] ("a".data)) ("a".data) = false ∧
    popPendingMessage [] ("a".data) = ([], none) :=
  claim_C5_pop_at_most_once [] ("a".data) ("x".data) [] (by decide)

end MyMemo
